import Mathlib

/-!
Verification development for the SkillForge skill-compatibility scoring engine.

The embedded code is the `SkillMatcher` class (exact/related/category matching,
experience bonus, project relevance, base score, blend with the external
semantic-analysis call) together with the `analyzeSkillMatch` glue from the
gemini service module.

Modelling conventions:
* JavaScript numbers are `Option ℚ`; `none` models `NaN`.  In this program a
  division has a zero denominator only when its numerator is zero as well
  (both are lengths of filters of the same list, or a sum over an empty
  list), so representing every zero-denominator division as `none` is
  faithful: `0/0 = NaN` in JavaScript, and the infinite cases never arise.
* The external call is a parameter: either it throws, or it yields a response
  text that may or may not parse to a `{score, analysis}` payload.  A parsed
  payload carries optional fields (a JSON object can omit either one); the
  model restricts payload fields to their contractual types (number, string).
* Strings are canonicalized character-wise (lowercase, then strip leading and
  trailing whitespace), mirroring `s.toLowerCase().trim()` for the ASCII
  labels this program works with.
-/

/-- JavaScript number: `some q` is a finite value, `none` models `NaN`.
Infinities never arise in the embedded program. -/
abbrev JsNum := Option ℚ

/-- JavaScript addition; `NaN` propagates. -/
def jadd : JsNum → JsNum → JsNum
  | some a, some b => some (a + b)
  | _, _ => none

/-- JavaScript multiplication; `NaN` propagates. -/
def jmul : JsNum → JsNum → JsNum
  | some a, some b => some (a * b)
  | _, _ => none

/-- JavaScript division; `NaN` propagates, and a zero denominator yields
`none` (in this program the numerator is zero whenever the denominator is,
so this is exactly the `0/0 = NaN` case). -/
def jdiv : JsNum → JsNum → JsNum
  | some a, some b => if b = 0 then none else some (a / b)
  | _, _ => none

/-- Behaviour of `Math.round`: round half toward positive infinity, and
`Math.round(NaN) = NaN`. -/
def jround : JsNum → JsNum
  | some a => some ((⌊a + 1/2⌋ : ℤ) : ℚ)
  | none => none

/-- Behaviour of `Math.min`: `NaN` when either argument is `NaN`. -/
def jmin : JsNum → JsNum → JsNum
  | some a, some b => some (min a b)
  | _, _ => none

/-- The expression `a || b` on a number `a`: `0`, `NaN` and `undefined` are
falsy (`none` covers both `NaN` and an absent field). -/
def jsOrNum (a : JsNum) (b : JsNum) : JsNum :=
  match a with
  | none => b
  | some q => if q = 0 then b else some q

/-- The expression `a || b` where `a` is a possibly absent string: both
`undefined` and the empty string are falsy. -/
def jsOrStr (a : Option String) (b : String) : String :=
  match a with
  | none => b
  | some s => if s = "" then b else s

/-- Template interpolation of a number produced by `Math.round`: an integer
prints as its decimal digits and `NaN` prints as the text `NaN`. -/
def jsIntString : JsNum → String
  | none => "NaN"
  | some q => toString q.num

/-- Behaviour of `Array.from(new Set(l))`: keep the first occurrence of each
element, in encounter order.  `seen` accumulates the elements already kept. -/
def jsDedupAux (seen : List String) : List String → List String
  | [] => []
  | s :: rest =>
    if seen.contains s then jsDedupAux seen rest
    else s :: jsDedupAux (s :: seen) rest

/-- Deduplication as performed by `Array.from(new Set(l))`. -/
def jsDedup (l : List String) : List String := jsDedupAux [] l

/-- The `SKILL_RELATIONSHIPS` record: one-directional related-skill lists,
keyed by canonical skill label, exactly as declared in the source. -/
def SKILL_RELATIONSHIPS : List (String × List String) := [
  ("react", ["javascript", "typescript", "frontend", "web development", "redux", "react-router", "nextjs"]),
  ("javascript", ["typescript", "web development", "frontend", "nodejs", "es6", "webpack"]),
  ("python", ["django", "flask", "backend", "data science", "machine learning", "pandas", "numpy"]),
  ("java", ["spring", "backend", "enterprise", "hibernate", "maven", "junit"]),
  ("nodejs", ["javascript", "backend", "express", "npm", "mongodb", "rest-api"]),
  ("typescript", ["javascript", "angular", "react", "nodejs", "type-safety"]),
  ("aws", ["cloud", "devops", "s3", "ec2", "lambda", "cloudformation"]),
  ("docker", ["kubernetes", "devops", "containerization", "microservices"]),
  ("sql", ["mysql", "postgresql", "database", "data modeling", "orm"]),
  ("machine learning", ["python", "data science", "tensorflow", "pytorch", "scikit-learn"]),
  ("ui/ux", ["figma", "design", "wireframing", "prototyping", "user research"]),
  ("agile", ["scrum", "project management", "jira", "kanban"]),
  ("testing", ["jest", "cypress", "selenium", "unit testing", "e2e testing"])]

/-- Lookup `SKILL_RELATIONSHIPS[skill] || []`. -/
def relationshipsFor (skill : String) : List String :=
  match SKILL_RELATIONSHIPS.find? (fun e => e.1 == skill) with
  | some e => e.2
  | none => []

/-- The `SKILL_CATEGORIES` record: category name to member canonical skill
labels, in declaration order (the order `Object.entries` iterates). -/
def SKILL_CATEGORIES : List (String × List String) := [
  ("frontend", ["react", "vue", "angular", "javascript", "typescript", "html", "css", "sass", "webpack", "nextjs", "gatsby"]),
  ("backend", ["nodejs", "python", "java", "php", "ruby", "golang", "express", "django", "spring", "graphql"]),
  ("database", ["mysql", "postgresql", "mongodb", "redis", "elasticsearch", "dynamodb", "orm", "sql", "nosql"]),
  ("devops", ["docker", "kubernetes", "aws", "azure", "gcp", "jenkins", "terraform", "ansible", "ci/cd"]),
  ("mobile", ["react native", "flutter", "ios", "android", "swift", "kotlin"]),
  ("ai/ml", ["machine learning", "deep learning", "python", "tensorflow", "pytorch", "nlp", "computer vision"]),
  ("design", ["ui/ux", "figma", "adobe xd", "sketch", "user research", "wireframing"]),
  ("testing", ["jest", "cypress", "selenium", "unit testing", "e2e testing", "test automation"]),
  ("project management", ["agile", "scrum", "jira", "trello", "project planning", "team leadership"]),
  ("security", ["cybersecurity", "oauth", "jwt", "encryption", "penetration testing", "security audit"])]

namespace SkillMatcher

/-- The five weights of the `SkillMatcher` instance (source literals
`1.0, 0.5, 0.3, 0.4, 0.6`). -/
structure SkillWeight where
  exact : ℚ
  related : ℚ
  experience : ℚ
  category : ℚ
  projectRelevance : ℚ

/-- The weight configuration fixed at construction. -/
def weights : SkillWeight :=
  { exact := 1, related := 1/2, experience := 3/10, category := 2/5, projectRelevance := 3/5 }

/-- Canonicalization of one skill label, `s.toLowerCase().trim()`:
lowercase each character, then remove leading and trailing whitespace
(implemented on the character list so that it evaluates by reduction). -/
def normalizeSkill (s : String) : String :=
  String.mk ((((s.data.map Char.toLower).dropWhile Char.isWhitespace).reverse.dropWhile
    Char.isWhitespace).reverse)

/-- Normalization of a whole skill list, `skills.map(s => s.toLowerCase().trim())`. -/
def normalizeSkills (skills : List String) : List String :=
  skills.map normalizeSkill

/-- The `exactMatches` constant: project skills present verbatim in the
canonical user skill list. -/
def exactMatchesOf (normalizedUserSkills normalizedProjectSkills : List String) : List String :=
  normalizedProjectSkills.filter fun skill => normalizedUserSkills.contains skill

/-- Method `findRelatedSkillMatches`: project skills that are not exact
matches but whose relationship entry contains a user skill. -/
def findRelatedSkillMatches (userSkills projectSkills : List String) : List String :=
  projectSkills.filter fun projectSkill =>
    !userSkills.contains projectSkill &&
      userSkills.any fun userSkill => (relationshipsFor projectSkill).contains userSkill

/-- Method `findCategoryMatches`: for every category populated by both
sides, all project skills of that category are collected, then deduplicated. -/
def findCategoryMatches (userSkills projectSkills : List String) : List String :=
  jsDedup <| SKILL_CATEGORIES.flatMap fun cat =>
    let projectSkillsInCategory := projectSkills.filter fun skill => cat.2.contains skill
    let userSkillsInCategory := userSkills.filter fun skill => cat.2.contains skill
    if projectSkillsInCategory.length > 0 && userSkillsInCategory.length > 0 then
      projectSkillsInCategory
    else []

/-- Method `generateAnalysis`: the local fallback analysis sentence. -/
def generateAnalysis (exactMatches relatedMatches requiredSkills : List String) : String :=
  let matchPercentage : JsNum :=
    jround (jmul (jdiv (some ((exactMatches.length : ℚ) + (relatedMatches.length : ℚ) * (1/2)))
      (some (requiredSkills.length : ℚ))) (some 100))
  "You match " ++ jsIntString matchPercentage ++ "% of the required skills. " ++
    (if exactMatches.length > 0 then
      "You have direct experience with " ++ String.intercalate ", " exactMatches ++ ". "
    else "") ++
    (if relatedMatches.length > 0 then
      "You have related experience that could apply to " ++
        String.intercalate ", " relatedMatches ++ ". "
    else "")

/-- Method `generateRecommendations`: one sentence per missing skill, naming
its category when some category contains it. -/
def generateRecommendations (missingSkills : List String) : List String :=
  missingSkills.map fun skill =>
    match SKILL_CATEGORIES.find? (fun e => e.2.contains skill) with
    | some e => "Consider learning " ++ skill ++ " to strengthen your " ++ e.1 ++ " skills"
    | none => "Consider learning " ++ skill

/-- Experience map: `Record<string, number>` as an association list. -/
abbrev Experience := List (String × ℚ)

/-- Lookup `experience[skill] || 0`. -/
def expGet (experience : Experience) (skill : String) : ℚ :=
  match experience.find? (fun kv => kv.1 == skill) with
  | some kv => kv.2
  | none => 0

/-- Method `calculateExperienceBonus`:
`Math.min(0.3, totalExperience / (matchedSkills.length * 5)) * weights.experience`.
The caller passes the exact-match list; with no exact matches the division is
`0/0`. -/
def calculateExperienceBonus (matchedSkills : List String) (experience : Experience) : JsNum :=
  let totalExperience : ℚ := matchedSkills.foldl (fun sum skill => sum + expGet experience skill) 0
  jmul (jmin (some (3/10)) (jdiv (some totalExperience)
    (some ((matchedSkills.length : ℚ) * 5)))) (some weights.experience)

/-- Method `calculateProjectRelevance`: ratio of entries of `matchedSkills`
lying in the first three project skills, over the slice length.  The caller
passes the exact-match list for `matchedSkills`. -/
def calculateProjectRelevance (matchedSkills projectSkills : List String) : JsNum :=
  let criticalSkills := projectSkills.take 3
  let criticalMatches := matchedSkills.filter fun skill => criticalSkills.contains skill
  jdiv (some ((criticalMatches.length : ℚ))) (some ((criticalSkills.length : ℚ)))

/-- The `exactScore` constant of `calculateMatch`. -/
def exactScoreOf (nu np : List String) : JsNum :=
  jmul (jdiv (some (((exactMatchesOf nu np).length : ℚ))) (some ((np.length : ℚ))))
    (some weights.exact)

/-- The `relatedScore` constant of `calculateMatch`. -/
def relatedScoreOf (nu np : List String) : JsNum :=
  jmul (jdiv (some (((findRelatedSkillMatches nu np).length : ℚ))) (some ((np.length : ℚ))))
    (some weights.related)

/-- The `categoryScore` constant of `calculateMatch`. -/
def categoryScoreOf (nu np : List String) : JsNum :=
  jmul (jdiv (some (((findCategoryMatches nu np).length : ℚ))) (some ((np.length : ℚ))))
    (some weights.category)

/-- The `experienceBonus` constant of `calculateMatch`: the bonus when an
experience map is supplied, `0` otherwise. -/
def experienceBonusOf (nu np : List String) (userExperience : Option Experience) : JsNum :=
  match userExperience with
  | some exp => calculateExperienceBonus (exactMatchesOf nu np) exp
  | none => some 0

/-- The `projectRelevanceScore` constant of `calculateMatch` (the source
passes the exact-match list, not the exact-and-related union). -/
def projectRelevanceScoreOf (nu np : List String) : JsNum :=
  calculateProjectRelevance (exactMatchesOf nu np) np

/-- The `baseScore` constant of `calculateMatch`:
`Math.min(100, Math.round((exactScore + relatedScore + categoryScore +
experienceBonus + projectRelevanceScore * weights.projectRelevance) * 100))`. -/
def baseScoreOf (userSkills projectSkills : List String)
    (userExperience : Option Experience) : JsNum :=
  let nu := normalizeSkills userSkills
  let np := normalizeSkills projectSkills
  jmin (some 100) (jround (jmul
    (jadd (jadd (jadd (jadd (exactScoreOf nu np) (relatedScoreOf nu np)) (categoryScoreOf nu np))
      (experienceBonusOf nu np userExperience))
      (jmul (projectRelevanceScoreOf nu np) (some weights.projectRelevance)))
    (some 100)))

end SkillMatcher

/-- Parsed payload of the external call: a JSON object whose `score` and
`analysis` fields may each be absent. -/
structure GeminiPayload where
  score : Option ℚ
  analysis : Option String

/-- Outcome of the awaited external call in `calculateMatch`: either
`generateContent` throws (network failure), or it returns a response text
`raw` that either parses to a payload or does not. -/
inductive GeminiOutcome where
  | throws : GeminiOutcome
  | returns : Option GeminiPayload → String → GeminiOutcome

/-- The `analyzeSkillMatch` glue of the gemini module, after the network
succeeded: `JSON.parse(text)` when the text parses, otherwise the fallback
`{score: 0, analysis: text}`. -/
def analyzeSkillMatch : Option GeminiPayload → String → GeminiPayload
  | some parsed, _ => parsed
  | none, raw => { score := some 0, analysis := some raw }

namespace SkillMatcher

/-- The `skillBreakdown` sub-record of the result. -/
structure SkillBreakdown where
  exactMatches : List String
  relatedMatches : List String
  categoryMatches : List String

/-- The `matchDetails` sub-record of the result. -/
structure MatchDetails where
  exactScore : JsNum
  relatedScore : JsNum
  categoryScore : JsNum
  projectRelevanceScore : JsNum

/-- The `SkillMatchResult` record returned by `calculateMatch`. -/
structure SkillMatchResult where
  score : JsNum
  analysis : String
  matchedSkills : List String
  missingSkills : List String
  recommendations : List String
  skillBreakdown : SkillBreakdown
  matchDetails : MatchDetails

/-- The `aiAnalysis` constant of `calculateMatch` after the try/catch around
the external call: the fallback payload on a throw, the glue result
otherwise. -/
def aiAnalysisOf (userSkills projectSkills : List String)
    (userExperience : Option Experience) (ext : GeminiOutcome) : GeminiPayload :=
  match ext with
  | .throws =>
    { score := baseScoreOf userSkills projectSkills userExperience
      analysis := some (generateAnalysis
        (exactMatchesOf (normalizeSkills userSkills) (normalizeSkills projectSkills))
        (findRelatedSkillMatches (normalizeSkills userSkills) (normalizeSkills projectSkills))
        (normalizeSkills projectSkills)) }
  | .returns parsed raw => analyzeSkillMatch parsed raw

/-- The `missingSkills` constant of `calculateMatch`: canonical project
skills that are neither exact nor related matches. -/
def missingSkillsOf (nu np : List String) : List String :=
  np.filter fun skill =>
    !(exactMatchesOf nu np).contains skill && !(findRelatedSkillMatches nu np).contains skill

/-- Method `calculateMatch`, with the outcome of the external call passed as
the `ext` parameter. -/
def calculateMatch (userSkills projectSkills : List String) (projectDescription : String)
    (userExperience : Option Experience) (ext : GeminiOutcome) : SkillMatchResult :=
  let nu := normalizeSkills userSkills
  let np := normalizeSkills projectSkills
  let exactMatches := exactMatchesOf nu np
  let relatedMatches := findRelatedSkillMatches nu np
  let categoryMatches := findCategoryMatches nu np
  let baseScore := baseScoreOf userSkills projectSkills userExperience
  let localAnalysis := generateAnalysis exactMatches relatedMatches np
  let aiAnalysis : GeminiPayload := aiAnalysisOf userSkills projectSkills userExperience ext
  let finalScore := jround (jdiv (jadd baseScore (jsOrNum aiAnalysis.score baseScore)) (some 2))
  let missingSkills := missingSkillsOf nu np
  { score := finalScore
    analysis := jsOrStr aiAnalysis.analysis localAnalysis
    matchedSkills := jsDedup (exactMatches ++ relatedMatches)
    missingSkills := missingSkills
    recommendations := generateRecommendations missingSkills
    skillBreakdown := { exactMatches := exactMatches, relatedMatches := relatedMatches,
                        categoryMatches := categoryMatches }
    matchDetails := { exactScore := jround (jmul (exactScoreOf nu np) (some 100))
                      relatedScore := jround (jmul (relatedScoreOf nu np) (some 100))
                      categoryScore := jround (jmul (categoryScoreOf nu np) (some 100))
                      projectRelevanceScore :=
                        jround (jmul (projectRelevanceScoreOf nu np) (some 100)) } }

end SkillMatcher

section JsNumLemmas

@[simp] theorem jadd_some (a b : ℚ) : jadd (some a) (some b) = some (a + b) := rfl

@[simp] theorem jadd_none_left (b : JsNum) : jadd none b = none := by cases b <;> rfl

@[simp] theorem jadd_none_right (a : JsNum) : jadd a none = none := by cases a <;> rfl

@[simp] theorem jmul_some (a b : ℚ) : jmul (some a) (some b) = some (a * b) := rfl

@[simp] theorem jmul_none_left (b : JsNum) : jmul none b = none := by cases b <;> rfl

@[simp] theorem jmul_none_right (a : JsNum) : jmul a none = none := by cases a <;> rfl

theorem jdiv_some (a b : ℚ) (h : b ≠ 0) : jdiv (some a) (some b) = some (a / b) := by
  simp [jdiv, h]

@[simp] theorem jdiv_some_zero (a : ℚ) : jdiv (some a) (some 0) = none := by
  simp [jdiv]

@[simp] theorem jdiv_none_left (b : JsNum) : jdiv none b = none := by cases b <;> rfl

@[simp] theorem jdiv_none_right (a : JsNum) : jdiv a none = none := by cases a <;> rfl

@[simp] theorem jround_some (a : ℚ) : jround (some a) = some ((⌊a + 1/2⌋ : ℤ) : ℚ) := rfl

@[simp] theorem jround_none : jround none = none := rfl

@[simp] theorem jmin_some (a b : ℚ) : jmin (some a) (some b) = some (min a b) := rfl

@[simp] theorem jmin_none_left (b : JsNum) : jmin none b = none := by cases b <;> rfl

@[simp] theorem jmin_none_right (a : JsNum) : jmin a none = none := by cases a <;> rfl

@[simp] theorem jsOrNum_none (b : JsNum) : jsOrNum none b = b := rfl

@[simp] theorem jsOrNum_some_zero (b : JsNum) : jsOrNum (some 0) b = b := by
  simp [jsOrNum]

theorem jsOrNum_some (q : ℚ) (b : JsNum) (h : q ≠ 0) : jsOrNum (some q) b = some q := by
  simp [jsOrNum, h]

@[simp] theorem jsOrStr_none (b : String) : jsOrStr none b = b := rfl

/-- Whatever the string, `s || b` collapses to `b` when `s` is falsy and to
`s` otherwise; with `b = s` both branches agree. -/
theorem jsOrStr_self (s : String) : jsOrStr (some s) s = s := by
  simp [jsOrStr]

theorem jsOrStr_empty (b : String) : jsOrStr (some "") b = b := by
  simp [jsOrStr]

/-- Rounding an integer-valued rational returns it unchanged. -/
theorem jround_intCast (n : ℤ) : jround (some (n : ℚ)) = some (n : ℚ) := by
  have h0 : ⌊((1:ℚ)/2)⌋ = 0 := by
    rw [Int.floor_eq_iff]
    norm_num
  have h : ⌊(n : ℚ) + 1/2⌋ = n := by
    rw [add_comm, Int.floor_add_int, h0, zero_add]
  rw [jround_some, h]

end JsNumLemmas

section DedupLemmas

theorem mem_jsDedupAux (seen l : List String) (x : String) :
    x ∈ jsDedupAux seen l ↔ x ∈ l ∧ x ∉ seen := by
  induction l generalizing seen with
  | nil => simp [jsDedupAux]
  | cons s rest ih =>
    by_cases hs : s ∈ seen
    · have hc : seen.contains s = true := by simpa using hs
      rw [jsDedupAux, if_pos hc, ih]
      simp only [List.mem_cons]
      constructor
      · rintro ⟨hmem, hnot⟩
        exact ⟨Or.inr hmem, hnot⟩
      · rintro ⟨rfl | hmem, hnot⟩
        · exact absurd hs hnot
        · exact ⟨hmem, hnot⟩
    · have hc : ¬seen.contains s = true := by simpa using hs
      rw [jsDedupAux, if_neg hc]
      simp only [List.mem_cons, ih]
      constructor
      · rintro (rfl | ⟨hmem, hnot⟩)
        · exact ⟨Or.inl rfl, hs⟩
        · exact ⟨Or.inr hmem, fun h => hnot (Or.inr h)⟩
      · rintro ⟨rfl | hmem, hnot⟩
        · exact Or.inl rfl
        · by_cases hxs : x = s
          · exact Or.inl hxs
          · exact Or.inr ⟨hmem, fun hx => hx.elim hxs hnot⟩

theorem mem_jsDedup (l : List String) (x : String) : x ∈ jsDedup l ↔ x ∈ l := by
  rw [jsDedup, mem_jsDedupAux]
  simp

theorem jsDedupAux_nodup (seen l : List String) : (jsDedupAux seen l).Nodup := by
  induction l generalizing seen with
  | nil => simp [jsDedupAux]
  | cons s rest ih =>
    by_cases hs : seen.contains s = true
    · rw [jsDedupAux, if_pos hs]
      exact ih seen
    · rw [jsDedupAux, if_neg hs]
      refine List.Nodup.cons ?_ (ih (s :: seen))
      intro hmem
      have := (mem_jsDedupAux (s :: seen) rest s).mp hmem
      exact this.2 (List.mem_cons_self s seen)

theorem jsDedup_nodup (l : List String) : (jsDedup l).Nodup := jsDedupAux_nodup [] l

end DedupLemmas

namespace SkillMatcher

theorem calculateMatch_score (u p : List String) (d : String) (e : Option Experience)
    (x : GeminiOutcome) :
    (calculateMatch u p d e x).score
      = jround (jdiv (jadd (baseScoreOf u p e)
          (jsOrNum (aiAnalysisOf u p e x).score (baseScoreOf u p e))) (some 2)) := rfl

theorem calculateMatch_analysis (u p : List String) (d : String) (e : Option Experience)
    (x : GeminiOutcome) :
    (calculateMatch u p d e x).analysis
      = jsOrStr (aiAnalysisOf u p e x).analysis
          (generateAnalysis (exactMatchesOf (normalizeSkills u) (normalizeSkills p))
            (findRelatedSkillMatches (normalizeSkills u) (normalizeSkills p))
            (normalizeSkills p)) := rfl

theorem calculateMatch_matchedSkills (u p : List String) (d : String) (e : Option Experience)
    (x : GeminiOutcome) :
    (calculateMatch u p d e x).matchedSkills
      = jsDedup (exactMatchesOf (normalizeSkills u) (normalizeSkills p)
          ++ findRelatedSkillMatches (normalizeSkills u) (normalizeSkills p)) := rfl

theorem calculateMatch_missingSkills (u p : List String) (d : String) (e : Option Experience)
    (x : GeminiOutcome) :
    (calculateMatch u p d e x).missingSkills
      = missingSkillsOf (normalizeSkills u) (normalizeSkills p) := rfl

theorem calculateMatch_breakdown (u p : List String) (d : String) (e : Option Experience)
    (x : GeminiOutcome) :
    (calculateMatch u p d e x).skillBreakdown
      = { exactMatches := exactMatchesOf (normalizeSkills u) (normalizeSkills p)
          relatedMatches := findRelatedSkillMatches (normalizeSkills u) (normalizeSkills p)
          categoryMatches := findCategoryMatches (normalizeSkills u) (normalizeSkills p) } := rfl

theorem calculateMatch_projectRelevance_field (u p : List String) (d : String)
    (e : Option Experience) (x : GeminiOutcome) :
    (calculateMatch u p d e x).matchDetails.projectRelevanceScore
      = jround (jmul (projectRelevanceScoreOf (normalizeSkills u) (normalizeSkills p))
          (some 100)) := rfl

/-- Shape of the base score: `NaN`, or an integer (the source computes it by
`Math.min(100, Math.round(...))`). -/
theorem baseScoreOf_shape (u p : List String) (e : Option Experience) :
    baseScoreOf u p e = none ∨ ∃ n : ℤ, baseScoreOf u p e = some (n : ℚ) := by
  unfold baseScoreOf
  cases h : jmul
      (jadd (jadd (jadd (jadd (exactScoreOf (normalizeSkills u) (normalizeSkills p))
        (relatedScoreOf (normalizeSkills u) (normalizeSkills p)))
        (categoryScoreOf (normalizeSkills u) (normalizeSkills p)))
        (experienceBonusOf (normalizeSkills u) (normalizeSkills p) e))
        (jmul (projectRelevanceScoreOf (normalizeSkills u) (normalizeSkills p))
          (some weights.projectRelevance)))
      (some 100) with
  | none => left; simp [h]
  | some q =>
    right
    refine ⟨min 100 ⌊q + 1/2⌋, ?_⟩
    simp only [h, jround_some, jmin_some]
    congr 1
    push_cast
    rfl

/-- Whatever the value, `x || x` is `x` (both branches agree). -/
theorem jsOrNum_self (x : JsNum) : jsOrNum x x = x := by
  cases x with
  | none => rfl
  | some q => simp [jsOrNum]

/-- Averaging a value with itself through the source final-score formula
returns it unchanged, both for an integer value and for `NaN`. -/
theorem jround_half_double (x : JsNum) (h : x = none ∨ ∃ n : ℤ, x = some (n : ℚ)) :
    jround (jdiv (jadd x x) (some 2)) = x := by
  rcases h with rfl | ⟨n, rfl⟩
  · rfl
  · rw [jadd_some, jdiv_some _ _ (by norm_num)]
    have : ((n : ℚ) + n) / 2 = (n : ℚ) := by ring
    rw [this, jround_intCast]

/-- Blending a value with itself through the source final-score formula
returns it unchanged, both for an integer value and for `NaN`. -/
theorem jround_blend_self (x : JsNum) (h : x = none ∨ ∃ n : ℤ, x = some (n : ℚ)) :
    jround (jdiv (jadd x (jsOrNum x x)) (some 2)) = x := by
  rw [jsOrNum_self]
  exact jround_half_double x h

end SkillMatcher

open SkillMatcher

theorem mem_missingSkillsOf (nu np : List String) (s : String) :
    s ∈ missingSkillsOf nu np
      ↔ s ∈ np ∧ s ∉ exactMatchesOf nu np ∧ s ∉ findRelatedSkillMatches nu np := by
  simp [missingSkillsOf, List.mem_filter, and_assoc]

theorem mem_exactMatchesOf (nu np : List String) (s : String) :
    s ∈ exactMatchesOf nu np ↔ s ∈ np ∧ s ∈ nu := by
  simp [exactMatchesOf, List.mem_filter]

theorem mem_findRelatedSkillMatches_subset (nu np : List String) (s : String)
    (h : s ∈ findRelatedSkillMatches nu np) : s ∈ np := by
  exact (List.mem_filter.mp h).1

/-- C6: over canonical forms, `matchedSkills` is the union of the exact and
related match lists, `missingSkills` is the canonical project list minus
`matchedSkills`, the two are disjoint, their union covers the canonical
project list, and both draw all elements from it. -/
theorem C6_partition_invariants (userSkills projectSkills : List String)
    (projectDescription : String) (userExperience : Option Experience) (ext : GeminiOutcome) :
    (∀ s, s ∈ (calculateMatch userSkills projectSkills projectDescription userExperience ext).matchedSkills
        ↔ s ∈ exactMatchesOf (normalizeSkills userSkills) (normalizeSkills projectSkills)
          ∨ s ∈ findRelatedSkillMatches (normalizeSkills userSkills) (normalizeSkills projectSkills))
  ∧ (∀ s, s ∈ (calculateMatch userSkills projectSkills projectDescription userExperience ext).missingSkills
        ↔ s ∈ normalizeSkills projectSkills
          ∧ s ∉ (calculateMatch userSkills projectSkills projectDescription userExperience ext).matchedSkills)
  ∧ (∀ s, ¬(s ∈ (calculateMatch userSkills projectSkills projectDescription userExperience ext).missingSkills
        ∧ s ∈ (calculateMatch userSkills projectSkills projectDescription userExperience ext).matchedSkills))
  ∧ (∀ s, s ∈ normalizeSkills projectSkills
        ↔ s ∈ (calculateMatch userSkills projectSkills projectDescription userExperience ext).missingSkills
          ∨ s ∈ (calculateMatch userSkills projectSkills projectDescription userExperience ext).matchedSkills)
  ∧ (∀ s ∈ (calculateMatch userSkills projectSkills projectDescription userExperience ext).matchedSkills,
        s ∈ normalizeSkills projectSkills)
  ∧ (∀ s ∈ (calculateMatch userSkills projectSkills projectDescription userExperience ext).missingSkills,
        s ∈ normalizeSkills projectSkills) := by
  have hmatched : ∀ s,
      s ∈ (calculateMatch userSkills projectSkills projectDescription userExperience ext).matchedSkills
        ↔ s ∈ exactMatchesOf (normalizeSkills userSkills) (normalizeSkills projectSkills)
          ∨ s ∈ findRelatedSkillMatches (normalizeSkills userSkills) (normalizeSkills projectSkills) := by
    intro s
    rw [calculateMatch_matchedSkills, mem_jsDedup, List.mem_append]
  have hmissing : ∀ s,
      s ∈ (calculateMatch userSkills projectSkills projectDescription userExperience ext).missingSkills
        ↔ s ∈ normalizeSkills projectSkills
          ∧ s ∉ exactMatchesOf (normalizeSkills userSkills) (normalizeSkills projectSkills)
          ∧ s ∉ findRelatedSkillMatches (normalizeSkills userSkills) (normalizeSkills projectSkills) := by
    intro s
    rw [calculateMatch_missingSkills, mem_missingSkillsOf]
  refine ⟨hmatched, ?_, ?_, ?_, ?_, ?_⟩
  · intro s
    rw [hmissing, hmatched]
    tauto
  · intro s
    rw [hmissing, hmatched]
    tauto
  · intro s
    rw [hmissing, hmatched]
    constructor
    · intro hnp
      by_cases hex : s ∈ exactMatchesOf (normalizeSkills userSkills) (normalizeSkills projectSkills)
      · exact Or.inr (Or.inl hex)
      · by_cases hrel : s ∈ findRelatedSkillMatches (normalizeSkills userSkills) (normalizeSkills projectSkills)
        · exact Or.inr (Or.inr hrel)
        · exact Or.inl ⟨hnp, hex, hrel⟩
    · rintro (⟨hnp, _, _⟩ | hex | hrel)
      · exact hnp
      · exact ((mem_exactMatchesOf _ _ s).mp hex).1
      · exact mem_findRelatedSkillMatches_subset _ _ s hrel
  · intro s hmem
    rcases (hmatched s).mp hmem with hex | hrel
    · exact ((mem_exactMatchesOf _ _ s).mp hex).1
    · exact mem_findRelatedSkillMatches_subset _ _ s hrel
  · intro s hmem
    exact ((hmissing s).mp hmem).1

/-- C7: when the external call throws, the returned score is exactly the
base score and the analysis is the locally generated sentence: the rounded
weighted percentage `round(((|exact| + |related| * 0.5) / |projectSkills|) * 100)`
followed by the exact-match and related-match listings when non-empty. -/
theorem C7_throw_uses_local_fallback (userSkills projectSkills : List String)
    (projectDescription : String) (userExperience : Option Experience) :
    (calculateMatch userSkills projectSkills projectDescription userExperience .throws).score
      = baseScoreOf userSkills projectSkills userExperience
  ∧ (calculateMatch userSkills projectSkills projectDescription userExperience .throws).analysis
      = "You match "
        ++ jsIntString (jround (jmul (jdiv (jadd
              (some (((exactMatchesOf (normalizeSkills userSkills) (normalizeSkills projectSkills)).length : ℚ)))
              (jmul (some (((findRelatedSkillMatches (normalizeSkills userSkills) (normalizeSkills projectSkills)).length : ℚ)))
                (some (1/2))))
            (some (((normalizeSkills projectSkills).length : ℚ)))) (some 100)))
        ++ "% of the required skills. "
        ++ (if (exactMatchesOf (normalizeSkills userSkills) (normalizeSkills projectSkills)).length > 0 then
              "You have direct experience with "
                ++ String.intercalate ", " (exactMatchesOf (normalizeSkills userSkills) (normalizeSkills projectSkills))
                ++ ". "
            else "")
        ++ (if (findRelatedSkillMatches (normalizeSkills userSkills) (normalizeSkills projectSkills)).length > 0 then
              "You have related experience that could apply to "
                ++ String.intercalate ", " (findRelatedSkillMatches (normalizeSkills userSkills) (normalizeSkills projectSkills))
                ++ ". "
            else "") := by
  constructor
  · rw [calculateMatch_score]
    have hai : (aiAnalysisOf userSkills projectSkills userExperience .throws).score
        = baseScoreOf userSkills projectSkills userExperience := rfl
    rw [hai]
    exact jround_blend_self _ (baseScoreOf_shape userSkills projectSkills userExperience)
  · rw [calculateMatch_analysis]
    have hai : (aiAnalysisOf userSkills projectSkills userExperience .throws).analysis
        = some (generateAnalysis
            (exactMatchesOf (normalizeSkills userSkills) (normalizeSkills projectSkills))
            (findRelatedSkillMatches (normalizeSkills userSkills) (normalizeSkills projectSkills))
            (normalizeSkills projectSkills)) := rfl
    rw [hai, jsOrStr_self]
    simp only [generateAnalysis, jadd_some, jmul_some]

/-- C9 counterexample: with the duplicated project skill `AWS` and no user
skill covering it, `missingSkills` keeps both copies of the canonical form,
so it is not duplicate-free as the claim states. -/
theorem C9_counterexample :
    (calculateMatch [] ["AWS", "AWS"] "" none .throws).missingSkills = ["aws", "aws"]
  ∧ ¬(calculateMatch [] ["AWS", "AWS"] "" none .throws).missingSkills.Nodup := by
  constructor
  · decide
  · decide

/-- C9 amended: `matchedSkills` is always duplicate-free (it goes through
`new Set`), and `missingSkills` is duplicate-free provided the canonical
project-skill list is (the source filters the canonical list without
deduplicating it, so duplicate canonical project skills survive). -/
theorem C9_matched_dedup_missing_conditional (userSkills projectSkills : List String)
    (projectDescription : String) (userExperience : Option Experience) (ext : GeminiOutcome) :
    (calculateMatch userSkills projectSkills projectDescription userExperience ext).matchedSkills.Nodup
  ∧ ((normalizeSkills projectSkills).Nodup →
      (calculateMatch userSkills projectSkills projectDescription userExperience ext).missingSkills.Nodup) := by
  constructor
  · rw [calculateMatch_matchedSkills]
    exact jsDedup_nodup _
  · intro h
    rw [calculateMatch_missingSkills]
    exact List.Nodup.filter _ h

/-- C9 witness: the amended statement applied at a concrete input whose
canonical project list is duplicate-free. -/
theorem C9_witness :
    (calculateMatch ["React"] ["React", "AWS"] "" none .throws).matchedSkills.Nodup
  ∧ (calculateMatch ["React"] ["React", "AWS"] "" none .throws).missingSkills.Nodup :=
  ⟨(C9_matched_dedup_missing_conditional ["React"] ["React", "AWS"] "" none .throws).1,
   (C9_matched_dedup_missing_conditional ["React"] ["React", "AWS"] "" none .throws).2 (by decide)⟩

/-- Evaluation helper: the base score of user `React` against project
`React` is 100 (exact, category and relevance components saturate the cap). -/
theorem baseScore_react_react : baseScoreOf ["React"] ["React"] none = some 100 := by
  have h0 : normalizeSkills ["React"] = ["react"] := by decide
  have h1 : exactMatchesOf ["react"] ["react"] = ["react"] := by decide
  have h2 : findRelatedSkillMatches ["react"] ["react"] = [] := by decide
  have h3 : findCategoryMatches ["react"] ["react"] = ["react"] := by decide
  have h4 : (["react"] : List String).take 3 = ["react"] := by decide
  have h5 : (["react"] : List String).filter (fun skill => (["react"] : List String).contains skill)
      = ["react"] := by decide
  simp only [baseScoreOf, h0, exactScoreOf, relatedScoreOf, categoryScoreOf, experienceBonusOf,
    projectRelevanceScoreOf, calculateProjectRelevance, h1, h2, h3, h4, h5,
    List.length_cons, List.length_nil, weights]
  norm_num [jdiv, jadd, jmul, jmin, jround]

/-- C1 counterexample: user `React`, project `React`, external call succeeds
with an unparseable payload.  The external score is then 0, and the claim
says this zero enters the blend, predicting `round((100 + 0)/2) = 50`; the
code instead substitutes the base score through `aiAnalysis.score || baseScore`
and returns 100. -/
theorem C1_counterexample :
    (calculateMatch ["React"] ["React"] "" none (.returns none "not json")).score
      ≠ jround (jdiv (jadd (baseScoreOf ["React"] ["React"] none) (some 0)) (some 2)) := by
  have hscore : (calculateMatch ["React"] ["React"] "" none (.returns none "not json")).score
      = some 100 := by
    rw [calculateMatch_score]
    have hai : (aiAnalysisOf ["React"] ["React"] none (.returns none "not json")).score
        = some 0 := rfl
    rw [hai, jsOrNum_some_zero, baseScore_react_react, jadd_some,
      jdiv_some _ _ (by norm_num), jround_some]
    norm_num
  rw [hscore, baseScore_react_react, jadd_some, jdiv_some _ _ (by norm_num), jround_some]
  norm_num

/-- C1 amended: the final score is `round((baseScore + s)/2)` where `s` is
the external score when that score is truthy (parsed, non-zero); when the
payload is unparseable (external score 0) or the parsed score is 0 or
absent, `aiAnalysis.score || baseScore` substitutes the base score and the
final score equals the base score. -/
theorem C1_final_score_blend (userSkills projectSkills : List String)
    (projectDescription : String) (userExperience : Option Experience) (raw : String)
    (payload : GeminiPayload) :
    ((calculateMatch userSkills projectSkills projectDescription userExperience (.returns none raw)).score
        = baseScoreOf userSkills projectSkills userExperience)
  ∧ (∀ s : ℚ, payload.score = some s → s ≠ 0 →
      (calculateMatch userSkills projectSkills projectDescription userExperience
          (.returns (some payload) raw)).score
        = jround (jdiv (jadd (baseScoreOf userSkills projectSkills userExperience) (some s))
            (some 2)))
  ∧ ((payload.score = some 0 ∨ payload.score = none) →
      (calculateMatch userSkills projectSkills projectDescription userExperience
          (.returns (some payload) raw)).score
        = baseScoreOf userSkills projectSkills userExperience) := by
  refine ⟨?_, ?_, ?_⟩
  · rw [calculateMatch_score]
    have hai : (aiAnalysisOf userSkills projectSkills userExperience (.returns none raw)).score
        = some 0 := rfl
    rw [hai, jsOrNum_some_zero]
    exact jround_half_double _ (baseScoreOf_shape userSkills projectSkills userExperience)
  · intro s hs hs0
    rw [calculateMatch_score]
    have hai : (aiAnalysisOf userSkills projectSkills userExperience
        (.returns (some payload) raw)).score = payload.score := rfl
    rw [hai, hs, jsOrNum_some _ _ hs0]
  · intro h
    rw [calculateMatch_score]
    have hai : (aiAnalysisOf userSkills projectSkills userExperience
        (.returns (some payload) raw)).score = payload.score := rfl
    rcases h with h | h
    · rw [hai, h, jsOrNum_some_zero]
      exact jround_half_double _ (baseScoreOf_shape userSkills projectSkills userExperience)
    · rw [hai, h, jsOrNum_none]
      exact jround_half_double _ (baseScoreOf_shape userSkills projectSkills userExperience)

/-- C1 witness: a parsed payload with the truthy score 80 really is averaged
with the base score. -/
theorem C1_witness :
    (calculateMatch ["React"] ["React"] "" none
        (.returns (some { score := some 80, analysis := some "Good fit" }) "raw")).score
      = jround (jdiv (jadd (baseScoreOf ["React"] ["React"] none) (some 80)) (some 2)) :=
  (C1_final_score_blend ["React"] ["React"] "" none "raw"
    { score := some 80, analysis := some "Good fit" }).2.1 80 rfl (by norm_num)

/-- C10 counterexample: a successfully parsed payload with score 0 and empty
analysis.  The claim says the returned score still blends the external
score, predicting `round((100 + 0)/2) = 50`; the code substitutes the base
score (100) because 0 is falsy. -/
theorem C10_counterexample :
    (calculateMatch ["React"] ["React"] "" none
        (.returns (some { score := some 0, analysis := some "" }) "raw")).score = some 100
  ∧ (calculateMatch ["React"] ["React"] "" none
        (.returns (some { score := some 0, analysis := some "" }) "raw")).score
      ≠ jround (jdiv (jadd (baseScoreOf ["React"] ["React"] none) (some 0)) (some 2)) := by
  have hscore : (calculateMatch ["React"] ["React"] "" none
      (.returns (some { score := some 0, analysis := some "" }) "raw")).score = some 100 := by
    rw [calculateMatch_score]
    have hai : (aiAnalysisOf ["React"] ["React"] none
        (.returns (some { score := some 0, analysis := some "" }) "raw")).score = some 0 := rfl
    rw [hai, jsOrNum_some_zero, baseScore_react_react, jadd_some,
      jdiv_some _ _ (by norm_num), jround_some]
    norm_num
  refine ⟨hscore, ?_⟩
  rw [hscore, baseScore_react_react, jadd_some, jdiv_some _ _ (by norm_num), jround_some]
  norm_num

/-- C10 amended: when the external call succeeds and the parsed analysis is
absent or empty, the caller receives the locally generated analysis; the
returned score blends the external score when that score is truthy, and
falls back to the base score when the external score is 0 or absent. -/
theorem C10_empty_analysis_fallback (userSkills projectSkills : List String)
    (projectDescription : String) (userExperience : Option Experience)
    (payload : GeminiPayload) (raw : String)
    (hempty : payload.analysis = none ∨ payload.analysis = some "") :
    ((calculateMatch userSkills projectSkills projectDescription userExperience
        (.returns (some payload) raw)).analysis
      = generateAnalysis (exactMatchesOf (normalizeSkills userSkills) (normalizeSkills projectSkills))
          (findRelatedSkillMatches (normalizeSkills userSkills) (normalizeSkills projectSkills))
          (normalizeSkills projectSkills))
  ∧ (∀ s : ℚ, payload.score = some s → s ≠ 0 →
      (calculateMatch userSkills projectSkills projectDescription userExperience
          (.returns (some payload) raw)).score
        = jround (jdiv (jadd (baseScoreOf userSkills projectSkills userExperience) (some s))
            (some 2)))
  ∧ ((payload.score = some 0 ∨ payload.score = none) →
      (calculateMatch userSkills projectSkills projectDescription userExperience
          (.returns (some payload) raw)).score
        = baseScoreOf userSkills projectSkills userExperience) := by
  refine ⟨?_, ?_, ?_⟩
  · rw [calculateMatch_analysis]
    have hai : (aiAnalysisOf userSkills projectSkills userExperience
        (.returns (some payload) raw)).analysis = payload.analysis := rfl
    rcases hempty with h | h
    · rw [hai, h, jsOrStr_none]
    · rw [hai, h, jsOrStr_empty]
  · intro s hs hs0
    rw [calculateMatch_score]
    have hai : (aiAnalysisOf userSkills projectSkills userExperience
        (.returns (some payload) raw)).score = payload.score := rfl
    rw [hai, hs, jsOrNum_some _ _ hs0]
  · intro h
    rw [calculateMatch_score]
    have hai : (aiAnalysisOf userSkills projectSkills userExperience
        (.returns (some payload) raw)).score = payload.score := rfl
    rcases h with h | h
    · rw [hai, h, jsOrNum_some_zero]
      exact jround_half_double _ (baseScoreOf_shape userSkills projectSkills userExperience)
    · rw [hai, h, jsOrNum_none]
      exact jround_half_double _ (baseScoreOf_shape userSkills projectSkills userExperience)

/-- C10 witness: an empty parsed analysis with the truthy score 80 yields
the local analysis and the true blended score. -/
theorem C10_witness :
    ((calculateMatch ["React"] ["React"] "" none
        (.returns (some { score := some 80, analysis := some "" }) "raw")).analysis
      = generateAnalysis (exactMatchesOf (normalizeSkills ["React"]) (normalizeSkills ["React"]))
          (findRelatedSkillMatches (normalizeSkills ["React"]) (normalizeSkills ["React"]))
          (normalizeSkills ["React"]))
  ∧ ((calculateMatch ["React"] ["React"] "" none
        (.returns (some { score := some 80, analysis := some "" }) "raw")).score
      = jround (jdiv (jadd (baseScoreOf ["React"] ["React"] none) (some 80)) (some 2))) :=
  ⟨(C10_empty_analysis_fallback ["React"] ["React"] "" none
      { score := some 80, analysis := some "" } "raw" (Or.inr rfl)).1,
   (C10_empty_analysis_fallback ["React"] ["React"] "" none
      { score := some 80, analysis := some "" } "raw" (Or.inr rfl)).2.1 80 rfl (by norm_num)⟩

/-- With an empty project list the exact sub-score is `0/0`, hence `NaN`. -/
theorem exactScoreOf_nil (nu : List String) : exactScoreOf nu [] = none := by
  simp [exactScoreOf, exactMatchesOf]

/-- With an empty project list the related sub-score is `0/0`, hence `NaN`. -/
theorem relatedScoreOf_nil (nu : List String) : relatedScoreOf nu [] = none := by
  simp [relatedScoreOf, findRelatedSkillMatches]

/-- With an empty project list the category sub-score is `0/0`, hence `NaN`. -/
theorem categoryScoreOf_nil (nu : List String) : categoryScoreOf nu [] = none := by
  have h : findCategoryMatches nu [] = [] := by
    rw [findCategoryMatches]
    have hfm : (SKILL_CATEGORIES.flatMap fun cat =>
        let projectSkillsInCategory := ([] : List String).filter fun skill => cat.2.contains skill
        let userSkillsInCategory := nu.filter fun skill => cat.2.contains skill
        if projectSkillsInCategory.length > 0 && userSkillsInCategory.length > 0 then
          projectSkillsInCategory
        else []) = [] := by
      rw [List.flatMap_eq_nil_iff]
      intro cat _
      simp
    rw [hfm]
    rfl
  simp [categoryScoreOf, h]

/-- With an empty project list the critical-skill slice is empty and the
project-relevance score is `0/0`, hence `NaN`. -/
theorem projectRelevanceScoreOf_nil (nu : List String) : projectRelevanceScoreOf nu [] = none := by
  simp [projectRelevanceScoreOf, calculateProjectRelevance, exactMatchesOf]

/-- With an empty project list the base score is `NaN`. -/
theorem baseScoreOf_nil_nil : baseScoreOf [] [] none = none := by
  have hnp : normalizeSkills ([] : List String) = [] := rfl
  simp [baseScoreOf, hnp, exactScoreOf_nil, relatedScoreOf_nil, categoryScoreOf_nil,
    projectRelevanceScoreOf_nil]

/-- C2: with empty `projectSkills` the code raises nothing and returns an
empty `missingSkills`, but every ratio sub-score evaluates to `NaN` (the
unguarded `0/0`), and the final score is `NaN` rather than a number, so the
guarded zero sub-scores the claim describes do not exist in the code. -/
theorem C2_empty_project_yields_NaN :
    (calculateMatch [] [] "" none .throws).matchDetails.exactScore = none
  ∧ (calculateMatch [] [] "" none .throws).matchDetails.relatedScore = none
  ∧ (calculateMatch [] [] "" none .throws).matchDetails.categoryScore = none
  ∧ (calculateMatch [] [] "" none .throws).matchDetails.projectRelevanceScore = none
  ∧ (calculateMatch [] [] "" none .throws).score = none
  ∧ (calculateMatch [] [] "" none .throws).missingSkills = [] := by
  have hnp : normalizeSkills ([] : List String) = [] := rfl
  refine ⟨?_, ?_, ?_, ?_, ?_, by decide⟩
  · show jround (jmul (exactScoreOf [] []) (some 100)) = none
    rw [exactScoreOf_nil]
    rfl
  · show jround (jmul (relatedScoreOf [] []) (some 100)) = none
    rw [relatedScoreOf_nil]
    rfl
  · show jround (jmul (categoryScoreOf [] []) (some 100)) = none
    rw [categoryScoreOf_nil]
    rfl
  · show jround (jmul (projectRelevanceScoreOf [] []) (some 100)) = none
    rw [projectRelevanceScoreOf_nil]
    rfl
  · rw [calculateMatch_score]
    have hai : (aiAnalysisOf [] [] none .throws).score = baseScoreOf [] [] none := rfl
    rw [hai, baseScoreOf_nil_nil, jsOrNum_none, jadd_none_left]
    rfl

/-- C3: with an experience map supplied and no exact matches the bonus is
the unguarded `0/0` times the weight, `NaN`, which then poisons the whole
returned score; the claim (and the spec) say the bonus is 0 in this case. -/
theorem C3_zero_exact_matches_yields_NaN :
    calculateExperienceBonus [] [("python", 5)] = none
  ∧ (calculateMatch ["Python"] ["React"] "" (some [("python", 5)]) .throws).score = none := by
  have hbonus : calculateExperienceBonus [] [("python", 5)] = none := by
    simp [calculateExperienceBonus]
  refine ⟨hbonus, ?_⟩
  have hnu : normalizeSkills ["Python"] = ["python"] := by decide
  have hnp : normalizeSkills ["React"] = ["react"] := by decide
  have hex : exactMatchesOf ["python"] ["react"] = [] := by decide
  have hbase : baseScoreOf ["Python"] ["React"] (some [("python", 5)]) = none := by
    simp only [baseScoreOf, hnu, hnp, experienceBonusOf, hex, hbonus]
    simp
  rw [calculateMatch_score]
  have hai : (aiAnalysisOf ["Python"] ["React"] (some [("python", 5)]) .throws).score
      = baseScoreOf ["Python"] ["React"] (some [("python", 5)]) := rfl
  rw [hai, hbase, jsOrNum_none, jadd_none_left]
  rfl

/-- C4 counterexample: user `JavaScript` against project `React`.  The skill
`react` is a related match, hence in the matched-skill set, and it is the
single critical skill, so the claim predicts a project-relevance fraction of
1 (reported as 100); the code passes only the exact-match list (empty here)
to `calculateProjectRelevance` and reports 0. -/
theorem C4_counterexample :
    (calculateMatch ["JavaScript"] ["React"] "" none .throws).matchedSkills = ["react"]
  ∧ (normalizeSkills ["React"]).take 3 = ["react"]
  ∧ (calculateMatch ["JavaScript"] ["React"] "" none .throws).matchDetails.projectRelevanceScore
      = some 0
  ∧ (calculateMatch ["JavaScript"] ["React"] "" none .throws).matchDetails.projectRelevanceScore
      ≠ some 100 := by
  have hnu : normalizeSkills ["JavaScript"] = ["javascript"] := by decide
  have hnp : normalizeSkills ["React"] = ["react"] := by decide
  have hex : exactMatchesOf ["javascript"] ["react"] = [] := by decide
  have hval : (calculateMatch ["JavaScript"] ["React"] "" none .throws).matchDetails.projectRelevanceScore
      = some 0 := by
    rw [calculateMatch_projectRelevance_field, hnu, hnp]
    simp only [projectRelevanceScoreOf, calculateProjectRelevance, hex]
    norm_num [jdiv, jround]
  refine ⟨by decide, by decide, hval, ?_⟩
  rw [hval]
  norm_num

/-- C4 amended: for a non-empty canonical project list, the reported
project-relevance sub-score is `round(100 * k / m)` where `m` is the length
of the first-3 critical slice and `k` counts the entries of the exact-match
list (not the exact-and-related union) lying in that slice. -/
theorem C4_relevance_counts_exact_only (userSkills projectSkills : List String)
    (projectDescription : String) (userExperience : Option Experience) (ext : GeminiOutcome)
    (h : normalizeSkills projectSkills ≠ []) :
    (calculateMatch userSkills projectSkills projectDescription userExperience ext).matchDetails.projectRelevanceScore
      = jround (some (((((exactMatchesOf (normalizeSkills userSkills) (normalizeSkills projectSkills)).filter
            (fun skill => ((normalizeSkills projectSkills).take 3).contains skill)).length : ℚ)
          / (((normalizeSkills projectSkills).take 3).length : ℚ)) * 100)) := by
  rw [calculateMatch_projectRelevance_field]
  simp only [projectRelevanceScoreOf, calculateProjectRelevance]
  have hlen : (((normalizeSkills projectSkills).take 3).length : ℚ) ≠ 0 := by
    have : ((normalizeSkills projectSkills).take 3) ≠ [] := by
      rw [Ne, List.take_eq_nil_iff]
      push_neg
      exact ⟨by norm_num, h⟩
    have hpos : 0 < ((normalizeSkills projectSkills).take 3).length :=
      List.length_pos.mpr this
    exact_mod_cast Nat.pos_iff_ne_zero.mp hpos
  rw [jdiv_some _ _ hlen, jmul_some]

/-- C4 witness: the amended statement applied to a concrete non-empty
project list. -/
theorem C4_witness :
    (calculateMatch ["React"] ["React"] "" none .throws).matchDetails.projectRelevanceScore
      = jround (some (((((exactMatchesOf (normalizeSkills ["React"]) (normalizeSkills ["React"])).filter
            (fun skill => ((normalizeSkills ["React"]).take 3).contains skill)).length : ℚ)
          / (((normalizeSkills ["React"]).take 3).length : ℚ)) * 100)) :=
  C4_relevance_counts_exact_only ["React"] ["React"] "" none .throws (by decide)

/-- The critical-skill slice of a non-empty list is non-empty, so its length
is a non-zero rational. -/
theorem take3_length_ne_zero (np : List String) (h : np ≠ []) :
    ((np.take 3).length : ℚ) ≠ 0 := by
  have hne : np.take 3 ≠ [] := by
    rw [Ne, List.take_eq_nil_iff]
    push_neg
    exact ⟨by norm_num, h⟩
  have hpos : 0 < (np.take 3).length := List.length_pos.mpr hne
  exact_mod_cast Nat.pos_iff_ne_zero.mp hpos

/-- C8 counterexample: user `Redux` versus project `React` are disjoint in
canonical form and in category membership (no category contains `redux`),
yet `react` is a related match because the relationship entry of `react`
lists `redux`; the claim predicts an empty related-match set. -/
theorem C8_counterexample :
    (∀ s ∈ normalizeSkills ["React"], s ∉ normalizeSkills ["Redux"])
  ∧ (∀ c ∈ SKILL_CATEGORIES,
      ¬((∃ s ∈ normalizeSkills ["React"], s ∈ c.2) ∧ (∃ s ∈ normalizeSkills ["Redux"], s ∈ c.2)))
  ∧ (calculateMatch ["Redux"] ["React"] "" none .throws).skillBreakdown.relatedMatches = ["react"]
  ∧ (calculateMatch ["Redux"] ["React"] "" none .throws).skillBreakdown.relatedMatches ≠ [] := by
  refine ⟨by decide, by decide, by decide, by decide⟩

/-- C8 amended: when user and non-empty project skills are disjoint in
canonical form, in category membership, and in the relationship table, and
no experience map is supplied, all three match sets are empty and each
structural component of the base score is 0, so the base score is 0. -/
theorem C8_disjoint_structural_zero (userSkills projectSkills : List String)
    (projectDescription : String) (ext : GeminiOutcome)
    (hne : normalizeSkills projectSkills ≠ [])
    (hdisj : ∀ s ∈ normalizeSkills projectSkills, s ∉ normalizeSkills userSkills)
    (hcat : ∀ c ∈ SKILL_CATEGORIES,
        ¬((∃ s ∈ normalizeSkills projectSkills, s ∈ c.2)
          ∧ (∃ s ∈ normalizeSkills userSkills, s ∈ c.2)))
    (hrel : ∀ s ∈ normalizeSkills projectSkills, ∀ t ∈ normalizeSkills userSkills,
        t ∉ relationshipsFor s) :
    (calculateMatch userSkills projectSkills projectDescription none ext).skillBreakdown.exactMatches = []
  ∧ (calculateMatch userSkills projectSkills projectDescription none ext).skillBreakdown.relatedMatches = []
  ∧ (calculateMatch userSkills projectSkills projectDescription none ext).skillBreakdown.categoryMatches = []
  ∧ exactScoreOf (normalizeSkills userSkills) (normalizeSkills projectSkills) = some 0
  ∧ relatedScoreOf (normalizeSkills userSkills) (normalizeSkills projectSkills) = some 0
  ∧ categoryScoreOf (normalizeSkills userSkills) (normalizeSkills projectSkills) = some 0
  ∧ experienceBonusOf (normalizeSkills userSkills) (normalizeSkills projectSkills) none = some 0
  ∧ projectRelevanceScoreOf (normalizeSkills userSkills) (normalizeSkills projectSkills) = some 0
  ∧ baseScoreOf userSkills projectSkills none = some 0 := by
  have hlen : ((normalizeSkills projectSkills).length : ℚ) ≠ 0 := by
    have hpos : 0 < (normalizeSkills projectSkills).length := List.length_pos.mpr hne
    exact_mod_cast Nat.pos_iff_ne_zero.mp hpos
  have hex : exactMatchesOf (normalizeSkills userSkills) (normalizeSkills projectSkills) = [] := by
    rw [exactMatchesOf, List.filter_eq_nil_iff]
    intro s hs
    simp only [List.elem_eq_mem, decide_eq_true_eq]
    exact hdisj s hs
  have hrelated : findRelatedSkillMatches (normalizeSkills userSkills)
      (normalizeSkills projectSkills) = [] := by
    rw [findRelatedSkillMatches, List.filter_eq_nil_iff]
    intro s hs
    simp only [Bool.and_eq_true, Bool.not_eq_true', List.any_eq_true, List.elem_eq_mem,
      decide_eq_true_eq, not_and, not_exists]
    intro _ t ht
    exact hrel s hs t ht
  have hcategory : findCategoryMatches (normalizeSkills userSkills)
      (normalizeSkills projectSkills) = [] := by
    rw [findCategoryMatches]
    have hfm : ((SKILL_CATEGORIES.flatMap fun cat =>
        let projectSkillsInCategory :=
          (normalizeSkills projectSkills).filter fun skill => cat.2.contains skill
        let userSkillsInCategory :=
          (normalizeSkills userSkills).filter fun skill => cat.2.contains skill
        if projectSkillsInCategory.length > 0 && userSkillsInCategory.length > 0 then
          projectSkillsInCategory
        else []) : List String) = [] := by
      rw [List.flatMap_eq_nil_iff]
      intro cat hcatmem
      dsimp only
      by_cases hp : ((normalizeSkills projectSkills).filter fun skill => cat.2.contains skill) = []
      · rw [hp]
        simp
      · have hu : ((normalizeSkills userSkills).filter fun skill => cat.2.contains skill) = [] := by
          rw [List.filter_eq_nil_iff]
          intro t ht
          simp only [List.elem_eq_mem, decide_eq_true_eq]
          intro htc
          rcases List.exists_mem_of_length_pos (List.length_pos.mpr hp) with ⟨s, hsmem⟩
          have hsf := List.mem_filter.mp hsmem
          have hsc : s ∈ cat.2 := by
            have := hsf.2
            simpa using this
          exact hcat cat hcatmem ⟨⟨s, hsf.1, hsc⟩, ⟨t, ht, htc⟩⟩
        rw [hu]
        simp
    rw [hfm]
    rfl
  refine ⟨?_, ?_, ?_, ?_, ?_, ?_, rfl, ?_, ?_⟩
  · rw [calculateMatch_breakdown]
    exact hex
  · rw [calculateMatch_breakdown]
    exact hrelated
  · rw [calculateMatch_breakdown]
    exact hcategory
  · rw [exactScoreOf, hex]
    rw [jdiv_some _ _ hlen]
    norm_num
  · rw [relatedScoreOf, hrelated]
    rw [jdiv_some _ _ hlen]
    norm_num
  · rw [categoryScoreOf, hcategory]
    rw [jdiv_some _ _ hlen]
    norm_num
  · rw [projectRelevanceScoreOf, hex, calculateProjectRelevance]
    rw [List.filter_nil, jdiv_some _ _ (take3_length_ne_zero _ hne)]
    norm_num
  · have h1 : exactScoreOf (normalizeSkills userSkills) (normalizeSkills projectSkills)
        = some 0 := by
      rw [exactScoreOf, hex, jdiv_some _ _ hlen]
      norm_num
    have h2 : relatedScoreOf (normalizeSkills userSkills) (normalizeSkills projectSkills)
        = some 0 := by
      rw [relatedScoreOf, hrelated, jdiv_some _ _ hlen]
      norm_num
    have h3 : categoryScoreOf (normalizeSkills userSkills) (normalizeSkills projectSkills)
        = some 0 := by
      rw [categoryScoreOf, hcategory, jdiv_some _ _ hlen]
      norm_num
    have h5 : projectRelevanceScoreOf (normalizeSkills userSkills)
        (normalizeSkills projectSkills) = some 0 := by
      rw [projectRelevanceScoreOf, hex, calculateProjectRelevance]
      rw [List.filter_nil, jdiv_some _ _ (take3_length_ne_zero _ hne)]
      norm_num
    rw [baseScoreOf]
    rw [h1, h2, h3, h5]
    show jmin (some 100) (jround (jmul (jadd (jadd (jadd (jadd (some 0) (some 0)) (some 0))
      (some 0)) (jmul (some 0) (some weights.projectRelevance))) (some 100))) = some 0
    norm_num [weights, jround]

/-- C8 witness: the amended statement applied to the fully disjoint pair
`Foo` versus `Bar` (neither appears in any table). -/
theorem C8_witness :
    (calculateMatch ["Foo"] ["Bar"] "" none .throws).skillBreakdown.exactMatches = []
  ∧ (calculateMatch ["Foo"] ["Bar"] "" none .throws).skillBreakdown.relatedMatches = []
  ∧ (calculateMatch ["Foo"] ["Bar"] "" none .throws).skillBreakdown.categoryMatches = []
  ∧ exactScoreOf (normalizeSkills ["Foo"]) (normalizeSkills ["Bar"]) = some 0
  ∧ relatedScoreOf (normalizeSkills ["Foo"]) (normalizeSkills ["Bar"]) = some 0
  ∧ categoryScoreOf (normalizeSkills ["Foo"]) (normalizeSkills ["Bar"]) = some 0
  ∧ experienceBonusOf (normalizeSkills ["Foo"]) (normalizeSkills ["Bar"]) none = some 0
  ∧ projectRelevanceScoreOf (normalizeSkills ["Foo"]) (normalizeSkills ["Bar"]) = some 0
  ∧ baseScoreOf ["Foo"] ["Bar"] none = some 0 :=
  C8_disjoint_structural_zero ["Foo"] ["Bar"] "" .throws (by decide) (by decide) (by decide)
    (by decide)

/-- Lookup in the experience map returns a non-negative level when every
entry of the map is non-negative (a missing key yields 0). -/
theorem expGet_nonneg (experience : Experience) (h : ∀ kv ∈ experience, 0 ≤ kv.2)
    (skill : String) : 0 ≤ expGet experience skill := by
  rw [expGet]
  cases hfind : experience.find? (fun kv => kv.1 == skill) with
  | none => exact le_refl 0
  | some kv => exact h kv (List.mem_of_find?_eq_some hfind)

/-- The experience sum stays non-negative when the map is non-negative. -/
theorem foldl_expGet_nonneg (experience : Experience) (h : ∀ kv ∈ experience, 0 ≤ kv.2) :
    ∀ (l : List String) (init : ℚ), 0 ≤ init →
      0 ≤ l.foldl (fun sum skill => sum + expGet experience skill) init := by
  intro l
  induction l with
  | nil =>
    intro init h0
    simpa using h0
  | cons s rest ih =>
    intro init h0
    rw [List.foldl_cons]
    exact ih _ (add_nonneg h0 (expGet_nonneg experience h s))

/-- With at least one matched skill and a non-negative experience map, the
experience bonus is a non-negative number (no `NaN`). -/
theorem calculateExperienceBonus_nonneg (matched : List String) (experience : Experience)
    (hm : matched ≠ []) (h : ∀ kv ∈ experience, 0 ≤ kv.2) :
    ∃ q : ℚ, calculateExperienceBonus matched experience = some q ∧ 0 ≤ q := by
  rw [calculateExperienceBonus]
  have hlen : ((matched.length : ℚ) * 5) ≠ 0 := by
    have hpos : 0 < matched.length := List.length_pos.mpr hm
    have hc : ((matched.length : ℚ)) ≠ 0 := by
      exact_mod_cast Nat.pos_iff_ne_zero.mp hpos
    exact mul_ne_zero hc (by norm_num)
  rw [jdiv_some _ _ hlen, jmin_some, jmul_some]
  refine ⟨_, rfl, ?_⟩
  have htot : 0 ≤ matched.foldl (fun sum skill => sum + expGet experience skill) 0 :=
    foldl_expGet_nonneg experience h matched 0 le_rfl
  have hmin : 0 ≤ min ((3:ℚ)/10)
      (matched.foldl (fun sum skill => sum + expGet experience skill) 0
        / ((matched.length : ℚ) * 5)) := by
    rw [le_min_iff]
    constructor
    · norm_num
    · exact div_nonneg htot (by positivity)
  exact mul_nonneg hmin (by norm_num [weights])

/-- A weighted ratio of two list lengths with a non-zero denominator is a
non-negative number. -/
theorem jratio_weight_nonneg (a b : ℕ) (w : ℚ) (hb : ((b : ℚ)) ≠ 0) (hw : 0 ≤ w) :
    ∃ q : ℚ, jmul (jdiv (some ((a : ℚ))) (some ((b : ℚ)))) (some w) = some q ∧ 0 ≤ q := by
  rw [jdiv_some _ _ hb, jmul_some]
  exact ⟨_, rfl, mul_nonneg (div_nonneg (Nat.cast_nonneg a) (Nat.cast_nonneg b)) hw⟩

/-- Bounds for the base score: under a non-empty project list and a sound
experience input (absent, or non-negative with at least one exact match),
the base score is an integer between 0 and 100. -/
theorem baseScoreOf_bounds (u p : List String) (e : Option Experience)
    (hproj : normalizeSkills p ≠ [])
    (hexp : ∀ exp, e = some exp →
        exactMatchesOf (normalizeSkills u) (normalizeSkills p) ≠ []
        ∧ ∀ kv ∈ exp, 0 ≤ kv.2) :
    ∃ b : ℤ, baseScoreOf u p e = some (b : ℚ) ∧ 0 ≤ b ∧ b ≤ 100 := by
  have hlen : (((normalizeSkills p).length : ℚ)) ≠ 0 := by
    have hpos : 0 < (normalizeSkills p).length := List.length_pos.mpr hproj
    exact_mod_cast Nat.pos_iff_ne_zero.mp hpos
  obtain ⟨q1, hq1, hq1n⟩ := jratio_weight_nonneg
    (exactMatchesOf (normalizeSkills u) (normalizeSkills p)).length
    (normalizeSkills p).length weights.exact hlen (by norm_num [weights])
  obtain ⟨q2, hq2, hq2n⟩ := jratio_weight_nonneg
    (findRelatedSkillMatches (normalizeSkills u) (normalizeSkills p)).length
    (normalizeSkills p).length weights.related hlen (by norm_num [weights])
  obtain ⟨q3, hq3, hq3n⟩ := jratio_weight_nonneg
    (findCategoryMatches (normalizeSkills u) (normalizeSkills p)).length
    (normalizeSkills p).length weights.category hlen (by norm_num [weights])
  have hbonus : ∃ q4 : ℚ, experienceBonusOf (normalizeSkills u) (normalizeSkills p) e = some q4
      ∧ 0 ≤ q4 := by
    cases e with
    | none => exact ⟨0, rfl, le_rfl⟩
    | some exp =>
      obtain ⟨hm, hnn⟩ := hexp exp rfl
      exact calculateExperienceBonus_nonneg _ exp hm hnn
  obtain ⟨q4, hq4, hq4n⟩ := hbonus
  have hrelev : ∃ q5 : ℚ, projectRelevanceScoreOf (normalizeSkills u) (normalizeSkills p) = some q5
      ∧ 0 ≤ q5 := by
    rw [projectRelevanceScoreOf, calculateProjectRelevance]
    rw [jdiv_some _ _ (take3_length_ne_zero _ hproj)]
    exact ⟨_, rfl, div_nonneg (Nat.cast_nonneg _) (Nat.cast_nonneg _)⟩
  obtain ⟨q5, hq5, hq5n⟩ := hrelev
  rw [baseScoreOf, exactScoreOf, relatedScoreOf, categoryScoreOf]
  rw [hq1, hq2, hq3, hq4, hq5]
  rw [jmul_some, jadd_some, jadd_some, jadd_some, jadd_some, jmul_some, jround_some, jmin_some]
  have hx : 0 ≤ (q1 + q2 + q3 + q4 + q5 * weights.projectRelevance) * 100 := by
    have hw : (0:ℚ) ≤ weights.projectRelevance := by norm_num [weights]
    have : 0 ≤ q5 * weights.projectRelevance := mul_nonneg hq5n hw
    nlinarith
  refine ⟨min 100 ⌊(q1 + q2 + q3 + q4 + q5 * weights.projectRelevance) * 100 + 1/2⌋, ?_, ?_, ?_⟩
  · congr 1
    push_cast
    rfl
  · have hfloor : (0:ℤ) ≤ ⌊(q1 + q2 + q3 + q4 + q5 * weights.projectRelevance) * 100 + 1/2⌋ := by
      rw [Int.le_floor]
      push_cast
      linarith
    exact le_min (by norm_num) hfloor
  · exact min_le_left _ _

/-- C5 counterexample: with no user skills, project `React`, and a parsed
external payload scoring 300, the returned score is 150, outside the claimed
0 to 100 range (the final blend is never clamped). -/
theorem C5_counterexample :
    (calculateMatch [] ["React"] "" none
        (.returns (some { score := some 300, analysis := some "ok" }) "raw")).score = some 150
  ∧ ¬(∃ n : ℤ, (calculateMatch [] ["React"] "" none
        (.returns (some { score := some 300, analysis := some "ok" }) "raw")).score
        = some ((n : ℚ)) ∧ 0 ≤ n ∧ n ≤ 100) := by
  have hnp : normalizeSkills ["React"] = ["react"] := by decide
  have hnu : normalizeSkills ([] : List String) = [] := rfl
  have h1 : exactMatchesOf [] ["react"] = [] := by decide
  have h2 : findRelatedSkillMatches [] ["react"] = [] := by decide
  have h3 : findCategoryMatches [] ["react"] = [] := by decide
  have h4 : (["react"] : List String).take 3 = ["react"] := by decide
  have hbase : baseScoreOf [] ["React"] none = some 0 := by
    simp only [baseScoreOf, hnu, hnp, exactScoreOf, relatedScoreOf, categoryScoreOf,
      experienceBonusOf, projectRelevanceScoreOf, calculateProjectRelevance, h1, h2, h3, h4,
      List.filter_nil, List.length_cons, List.length_nil, weights]
    norm_num [jdiv, jadd, jmul, jmin, jround]
  have hscore : (calculateMatch [] ["React"] "" none
      (.returns (some { score := some 300, analysis := some "ok" }) "raw")).score
      = some 150 := by
    rw [calculateMatch_score]
    have hai : (aiAnalysisOf [] ["React"] none
        (.returns (some { score := some 300, analysis := some "ok" }) "raw")).score
        = some 300 := rfl
    rw [hai, jsOrNum_some _ _ (by norm_num), hbase, jadd_some, jdiv_some _ _ (by norm_num),
      jround_some]
    norm_num
  refine ⟨hscore, ?_⟩
  rintro ⟨n, hn, h0, h100⟩
  rw [hscore] at hn
  have hcast : (150 : ℚ) = ((n : ℚ)) := Option.some.inj hn
  have hn150 : n = 150 := by exact_mod_cast hcast.symm
  omega

/-- C5 amended: the returned score is an integer in 0 to 100 provided the
project list is non-empty, the experience map (when supplied) is
non-negative and at least one exact match exists, and a parsed non-zero
external score lies in 0 to 100; outside these conditions the code can
return `NaN` or values beyond 100. -/
theorem C5_final_score_range (u p : List String) (d : String) (e : Option Experience)
    (x : GeminiOutcome)
    (hproj : normalizeSkills p ≠ [])
    (hexp : ∀ exp, e = some exp →
        exactMatchesOf (normalizeSkills u) (normalizeSkills p) ≠ []
        ∧ ∀ kv ∈ exp, 0 ≤ kv.2)
    (hext : ∀ payload raw s, x = .returns (some payload) raw → payload.score = some s →
        s ≠ 0 → 0 ≤ s ∧ s ≤ 100) :
    ∃ n : ℤ, (calculateMatch u p d e x).score = some ((n : ℚ)) ∧ 0 ≤ n ∧ n ≤ 100 := by
  obtain ⟨b, hb, hb0, hb100⟩ := baseScoreOf_bounds u p e hproj hexp
  have hbq0 : (0:ℚ) ≤ ((b : ℚ)) := by exact_mod_cast hb0
  have hbq100 : ((b : ℚ)) ≤ 100 := by exact_mod_cast hb100
  rw [calculateMatch_score]
  have hblend : ∃ v : ℚ, jsOrNum (aiAnalysisOf u p e x).score (baseScoreOf u p e) = some v
      ∧ 0 ≤ v ∧ v ≤ 100 := by
    cases x with
    | throws =>
      have hai : (aiAnalysisOf u p e .throws).score = baseScoreOf u p e := rfl
      rw [hai, jsOrNum_self, hb]
      exact ⟨b, rfl, hbq0, hbq100⟩
    | returns parsed raw =>
      cases parsed with
      | none =>
        have hai : (aiAnalysisOf u p e (.returns none raw)).score = some 0 := rfl
        rw [hai, jsOrNum_some_zero, hb]
        exact ⟨b, rfl, hbq0, hbq100⟩
      | some payload =>
        have hai : (aiAnalysisOf u p e (.returns (some payload) raw)).score
            = payload.score := rfl
        cases hps : payload.score with
        | none =>
          rw [hai, hps, jsOrNum_none, hb]
          exact ⟨b, rfl, hbq0, hbq100⟩
        | some s =>
          by_cases hs0 : s = 0
          · rw [hai, hps, hs0, jsOrNum_some_zero, hb]
            exact ⟨b, rfl, hbq0, hbq100⟩
          · obtain ⟨hs1, hs2⟩ := hext payload raw s rfl hps hs0
            rw [hai, hps, jsOrNum_some _ _ hs0]
            exact ⟨s, rfl, hs1, hs2⟩
  obtain ⟨v, hv, hv0, hv100⟩ := hblend
  rw [hv, hb, jadd_some, jdiv_some _ _ (by norm_num), jround_some]
  refine ⟨⌊(((b : ℚ)) + v) / 2 + 1/2⌋, rfl, ?_, ?_⟩
  · rw [Int.le_floor]
    push_cast
    linarith
  · have hub : (((b : ℚ)) + v) / 2 + 1/2 < ((101 : ℤ) : ℚ) := by
      push_cast
      linarith
    have := Int.floor_lt.mpr hub
    omega

/-- C5 witness: the amended statement applied at a concrete well-behaved
input. -/
theorem C5_witness :
    ∃ n : ℤ, (calculateMatch ["React"] ["React"] "" none .throws).score = some ((n : ℚ))
      ∧ 0 ≤ n ∧ n ≤ 100 :=
  C5_final_score_range ["React"] ["React"] "" none .throws (by decide)
    (fun exp h => nomatch h) (fun payload raw s h => nomatch h)
